import Mathlib

/-!
Shallow embedding of the agent repository's core: the Memory Store
(`agent/memory.py`), the Tool Dispatcher (`dispatch_tool` in `agent/brain.py`)
and the Session Orchestrator (`run_session` in `agent/brain.py`).

Modelling conventions:
* SQLite tables are Lean lists of row structures inside a `Store`; AUTOINCREMENT
  primary keys are modelled with explicit `next…Id` counters.
* `now_iso()` timestamps are threaded as explicit `now : String` arguments.
* The ChromaDB collection is the `index` list in `Store`; its similarity
  search is an oracle parameter (`SemOracle`), since the embedding model is an
  external collaborator.  Chroma failures that the source can encounter are
  injected through explicit parameters (`chromaAddFail`, `chromaDeleteFail`).
* Python exceptions are `Except` errors carrying the message and the store as
  it stood when the exception was raised (SQLite work in the source is
  committed per `with get_conn()` block, so earlier writes survive a later
  exception).  Relational (SQLite) operations themselves are modelled as
  non-failing.
* JSON values arriving from the model are the `JVal` inductive; Python's
  dynamic typing at the handler boundary is modelled by the `asStr` / `asInt`
  coercions, which raise where CPython would raise a `TypeError` inside the
  handler or DB layer.
-/

/-- JSON-ish value as found in a tool-use block's `input` mapping. -/
inductive JVal where
  | s (v : String)
  | i (v : Int)
  | arr (v : List String)
deriving Repr, DecidableEq

/-- A tool call's structured inputs: Python dict, modelled as an assoc list. -/
abbrev Inputs := List (String × JVal)

/-- Python `inputs[k]` key lookup (first binding wins, dicts have unique keys). -/
def lookup (inputs : Inputs) (k : String) : Option JVal :=
  (inputs.find? (fun p => p.1 == k)).map (·.2)

/-- One audit record appended by `dispatch_tool`: `{"tool": name, "inputs": inputs}`. -/
structure ActionRec where
  tool : String
  inputs : Inputs
deriving Repr, DecidableEq

/-- Row of the `memories` table. -/
structure MemRow where
  id : Nat
  category : String
  content : String
  importance : Int
  created_at : String
deriving Repr, DecidableEq

/-- Row of the `posts` table. -/
structure PostRow where
  id : Nat
  title : String
  slug : String
  content_md : String
  session_id : Nat
  published_at : Option String
  twitter_url : Option String
  bluesky_url : Option String
deriving Repr, DecidableEq

/-- Row of the `sessions` table.  `actions_json` holds the decoded JSON list
(the `json.dumps` serialisation is modelled as the list itself). -/
structure SessionRow where
  id : Nat
  started_at : String
  ended_at : Option String
  summary : Option String
  actions_json : List ActionRec
deriving Repr, DecidableEq

/-- Row of the `reminders` table. -/
structure ReminderRow where
  id : Nat
  due_date : String
  note : String
  created_at : String
  triggered_at : Option String
deriving Repr, DecidableEq

/-- One entry of the ChromaDB `memories` collection: id (stringified in the
source, kept numeric here), document text, and the category/importance
metadata. -/
structure IndexEntry where
  id : Nat
  document : String
  category : String
  importance : Int
deriving Repr, DecidableEq

/-- The durable state: the SQLite tables plus the ChromaDB collection. -/
structure Store where
  memories : List MemRow
  posts : List PostRow
  sessions : List SessionRow
  reminders : List ReminderRow
  index : List IndexEntry
  nextMemId : Nat
  nextPostId : Nat
  nextSessionId : Nat
  nextReminderId : Nat
deriving Repr, DecidableEq

/-- A `recall` hit as returned to the dispatcher: id, category, content,
importance (the dict built at `memory.py:161-168`). -/
structure MemHit where
  id : Nat
  category : String
  content : String
  importance : Int
deriving Repr, DecidableEq

/-- The ChromaDB nearest-neighbour search, abstracted: given the collection's
entries, the query text and `n_results`, returns the chosen entries in
similarity order. -/
abbrev SemOracle := List IndexEntry → String → Nat → List IndexEntry

/-- Lexicographic `≤` on character lists: SQLite's BINARY collation restricted
to the ASCII strings the repo stores (`YYYY-MM-DD` dates). -/
def charListLeb : List Char → List Char → Bool
  | [], _ => true
  | _ :: _, [] => false
  | a :: as, b :: bs =>
    if a < b then true else if b < a then false else charListLeb as bs

/-- SQLite BINARY-collation `<=` on TEXT values. -/
def strLeb (a b : String) : Bool := charListLeb a.toList b.toList

/-- Insert into an already-sorted list (the insertion step of `insSortBy`). -/
def insBy (le : α → α → Bool) (a : α) : List α → List α
  | [] => [a]
  | b :: bs => if le a b then a :: b :: bs else b :: insBy le a bs

/-- Insertion sort, the model of SQL `ORDER BY` (any correct sort is a
faithful model; SQLite does not promise a particular tie order). -/
def insSortBy (le : α → α → Bool) : List α → List α
  | [] => []
  | a :: as => insBy le a (insSortBy le as)

namespace Memory

/-- `memory.py remember`: clamp importance to [1,5], INSERT the relational row,
then `col.add` the same id/content/metadata to the index.  The `col.add`
step is NOT error-isolated in the source, so an injected Chroma failure
(`chromaAddFail = some e`) propagates after the relational insert committed. -/
def remember (chromaAddFail : Option String) (st : Store)
    (category content : String) (importance : Int) (now : String) :
    Except (String × Store) (Store × Nat) :=
  let imp := max 1 (min 5 importance)
  let mid := st.nextMemId
  let st1 := { st with
    memories := st.memories ++ [⟨mid, category, content, imp, now⟩],
    nextMemId := mid + 1 }
  match chromaAddFail with
  | some e => .error (e, st1)
  | none =>
      .ok ({ st1 with index := st1.index ++ [⟨mid, content, category, imp⟩] }, mid)

/-- `memory.py recall`: if the collection is empty return `[]`; otherwise query
the index for `min limit count` nearest entries and rebuild the hit dicts
from the returned ids, documents and metadata. -/
def recall' (sem : SemOracle) (st : Store) (query : String) (limit : Nat) :
    List MemHit :=
  if st.index.length = 0 then []
  else
    (sem st.index query (min limit st.index.length)).map
      (fun e => ⟨e.id, e.category, e.document, e.importance⟩)

/-- `memory.py delete_memory`: DELETE the relational row, record whether
`rowcount > 0`, and only if a row was deleted attempt the Chroma delete,
swallowing any exception (`chromaDeleteFail = true` models the failure).
The relational outcome is returned either way. -/
def delete_memory (chromaDeleteFail : Bool) (st : Store) (memory_id : Int) :
    Store × Bool :=
  let deleted := st.memories.any (fun r => (r.id : Int) == memory_id)
  let st1 := { st with memories := st.memories.filter (fun r => (r.id : Int) != memory_id) }
  let st2 :=
    if deleted then
      if chromaDeleteFail then st1
      else { st1 with index := st1.index.filter (fun e => (e.id : Int) != memory_id) }
    else st1
  (st2, deleted)

/-- `memory.py get_all_memories`: SELECT ordered by importance DESC, id DESC. -/
def get_all_memories (st : Store) (limit : Nat) : List MemRow :=
  ((insSortBy (fun a b =>
      b.importance < a.importance ||
        (b.importance == a.importance && decide (b.id ≤ a.id))) st.memories).take limit)

/-- `memory.py end_session`: UPDATE the session row with `ended_at = now`, the
summary, and the serialised action list. -/
def end_session (st : Store) (session_id : Nat) (summary : String)
    (actions : List ActionRec) (now : String) : Store :=
  { st with sessions := st.sessions.map (fun s =>
      if s.id == session_id then
        { s with ended_at := some now, summary := some summary,
                 actions_json := actions }
      else s) }

/-- `memory.py start_session`: INSERT a fresh open session row. -/
def start_session (st : Store) (now : String) : Store × Nat :=
  ({ st with
      sessions := st.sessions ++ [⟨st.nextSessionId, now, none, none, []⟩],
      nextSessionId := st.nextSessionId + 1 },
   st.nextSessionId)

/-- `memory.py list_posts`: SELECT id, title, slug, published_at ordered by id
DESC, limited. -/
def list_posts (st : Store) (limit : Nat) : List PostRow :=
  (insSortBy (fun a b => decide (b.id ≤ a.id)) st.posts).take limit

/-- `memory.py read_post`: SELECT the row with the given slug, if any. -/
def read_post (st : Store) (slug : String) : Option PostRow :=
  st.posts.find? (fun p => p.slug == slug)

/-- `memory.py save_post`: INSERT … ON CONFLICT(slug) DO UPDATE SET
content_md, published_at, twitter_url, bluesky_url (title and session_id are
NOT in the update list).  The returned `lastrowid` is not modelled (no claim
mentions it); the function returns the updated store. -/
def save_post (st : Store) (title slug content_md : String) (session_id : Nat)
    (now : String) (twitter_url bluesky_url : Option String) : Store :=
  if st.posts.any (fun p => p.slug == slug) then
    { st with posts := st.posts.map (fun p =>
        if p.slug == slug then
          { p with content_md := content_md, published_at := some now,
                   twitter_url := twitter_url, bluesky_url := bluesky_url }
        else p) }
  else
    { st with
        posts := st.posts ++
          [⟨st.nextPostId, title, slug, content_md, session_id, some now,
            twitter_url, bluesky_url⟩],
        nextPostId := st.nextPostId + 1 }

/-- `memory.py set_reminder`: INSERT a reminder row with `triggered_at` NULL. -/
def set_reminder (st : Store) (due_date note : String) (now : String) :
    Store × Nat :=
  ({ st with
      reminders := st.reminders ++ [⟨st.nextReminderId, due_date, note, now, none⟩],
      nextReminderId := st.nextReminderId + 1 },
   st.nextReminderId)


/-- `memory.py get_due_reminders`: SELECT rows with `due_date <= today AND
triggered_at IS NULL` ordered by due_date ascending (SQLite BINARY collation
on ISO dates = lexicographic string order). -/
def get_due_reminders (st : Store) (today : String) : List ReminderRow :=
  insSortBy (fun a b => strLeb a.due_date b.due_date)
    (st.reminders.filter
      (fun r => strLeb r.due_date today && r.triggered_at.isNone))

/-- `memory.py mark_reminders_triggered`: no-op on an empty id list, otherwise
UPDATE `triggered_at = now` on every row whose id is in `ids`. -/
def mark_reminders_triggered (st : Store) (ids : List Nat) (now : String) :
    Store :=
  if ids.isEmpty then st
  else
    { st with reminders := st.reminders.map (fun r =>
        if ids.contains r.id then { r with triggered_at := some now } else r) }

end Memory

/-- Prefix test on character lists. -/
def prefCh : List Char → List Char → Bool
  | [], _ => true
  | _ :: _, [] => false
  | a :: as, b :: bs => a == b && prefCh as bs

/-- Substring (contiguous) test on character lists. -/
def containsCh (needle : List Char) : List Char → Bool
  | [] => prefCh needle []
  | b :: bs => prefCh needle (b :: bs) || containsCh needle bs

/-- Case-insensitive substring test, per the spec's fallback wording
(ASCII case folding; the repo's categories and queries are ASCII). -/
def substrCI (needle hay : String) : Bool :=
  containsCh (needle.toList.map Char.toLower) (hay.toList.map Char.toLower)

/-- Modelled from the spec (read path, §4.3): the claimed `recall` fallback —
a case-insensitive substring match over content and category, ranked by
importance descending then id descending, limited.  This definition follows
the spec's words only; it exists to be compared against the code's
`Memory.recall'`. -/
def spec_recall_fallback (st : Store) (query : String) (limit : Nat) :
    List MemHit :=
  ((insSortBy
      (fun a b => b.importance < a.importance ||
        (b.importance == a.importance && decide (b.id ≤ a.id)))
      (st.memories.filter
        (fun r => substrCI query r.content || substrCI query r.category))).take limit).map
    (fun r => ⟨r.id, r.category, r.content, r.importance⟩)

/-- `str(KeyError(k))` in CPython: the key in single quotes. -/
def pyKeyError (k : String) : String := "\x27" ++ k ++ "\x27"

/-- Computation that may raise a Python exception: the error carries the
message and the store as committed at raise time. -/
abbrev ExceptSt (α : Type) := Except (String × Store) α

/-- `inputs[k]`: raises `KeyError(k)` when the key is absent. -/
def req (st : Store) (inputs : Inputs) (k : String) : ExceptSt JVal :=
  match lookup inputs k with
  | none => .error (pyKeyError k, st)
  | some v => .ok v

/-- Lift a store-independent fallible step (collaborator call / coercion). -/
def liftX (st : Store) : Except String α → ExceptSt α
  | .error e => .error (e, st)
  | .ok a => .ok a

/-- CPython dynamic typing at a boundary that needs a `str`. -/
def asStr : JVal → Except String String
  | .s v => .ok v
  | _ => .error "TypeError"

/-- CPython dynamic typing at a boundary that needs an `int`. -/
def asInt : JVal → Except String Int
  | .i v => .ok v
  | _ => .error "TypeError"

/-- The process environment of `dispatch_tool` / `run_session`: the clock, the
ChromaDB similarity oracle, injectable Chroma faults, and one oracle per
external collaborator (`agent/tools/*`).  Each collaborator is a function of
the raw input values it is handed, returning its final result text or raising
(`Except.error`); the pure `json.dumps` formatting of collaborator results is
folded into the oracle. -/
structure Env where
  now : String
  sem : SemOracle
  chromaAddFail : Option String
  chromaDeleteFail : Bool
  web_search : JVal → Except String String
  web_browse : JVal → Except String String
  get_stock_data : JVal → Except String String
  write_blog_post : JVal → JVal → JVal → Nat → Except String String
  update_about : JVal → Except String String
  run_python : JVal → Except String String
  fetch_rss : JVal → JVal → Except String String
  get_wikipedia : JVal → Except String String
  get_weather : JVal → Except String String
  download_file : JVal → Except String String
  read_inbox : JVal → Except String String
  reply_email : JVal → JVal → Except String String
  push_session_summary : Nat → String → Except String String

/-- Result of `dispatch_tool`: the `(result_text, should_exit)` pair of the
source plus the store and action list it left behind. -/
structure DispatchOut where
  text : String
  shouldExit : Bool
  store : Store
  actions : List ActionRec
deriving Repr

/-- One tool capability declaration: its name and its schema's `required`
list (`TOOLS` in `agent/brain.py`; descriptions and property types are prompt
text with no bearing on the claims and are omitted). -/
structure ToolDecl where
  name : String
  required : List String
deriving Repr, DecidableEq

/-- The `TOOLS` list of `agent/brain.py`, restricted to name + required. -/
def TOOLS : List ToolDecl :=
  [⟨"web_search", ["query"]⟩,
   ⟨"web_browse", ["url"]⟩,
   ⟨"get_stock_data", ["tickers"]⟩,
   ⟨"remember", ["category", "content", "importance"]⟩,
   ⟨"recall", ["query"]⟩,
   ⟨"write_blog_post", ["title", "markdown", "summary"]⟩,
   ⟨"update_about", ["content"]⟩,
   ⟨"run_python", ["code"]⟩,
   ⟨"fetch_rss", ["url"]⟩,
   ⟨"list_posts", []⟩,
   ⟨"read_post", ["slug"]⟩,
   ⟨"delete_memory", ["memory_id"]⟩,
   ⟨"get_wikipedia", ["topic"]⟩,
   ⟨"get_weather", ["location"]⟩,
   ⟨"download_file", ["url"]⟩,
   ⟨"set_reminder", ["date", "note"]⟩,
   ⟨"read_inbox", []⟩,
   ⟨"reply_email", ["message_id", "body"]⟩,
   ⟨"end_session", ["summary"]⟩]

/-- All registered capability names, in registration order. -/
def toolNames : List String := TOOLS.map (·.name)

/-- A tool's declared required-field list (empty for unregistered names). -/
def requiredFields (name : String) : List String :=
  ((TOOLS.find? (fun t => t.name == name)).map (·.required)).getD []

/-- Body of the `try:` block of `dispatch_tool` (`brain.py:307-407`): the
if/elif chain over tool names.  `actions` is the list as it stands after the
audit append (the source appends before this block runs, and the
`end_session` branch persists that appended list).  Python `inputs[...]`
subscripts are evaluated in source order before the handler call; collaborator
calls go through the environment's oracles. -/
def dispatchBody (env : Env) (st : Store) (name : String) (inputs : Inputs)
    (session_id : Nat) (actions : List ActionRec) :
    ExceptSt (String × Bool × Store) :=
  if name = "web_search" then do
    let q ← req st inputs "query"
    let r ← liftX st (env.web_search q)
    return (r, false, st)
  else if name = "web_browse" then do
    let u ← req st inputs "url"
    let t ← liftX st (env.web_browse u)
    let t := if t.length > 8000 then t.take 8000 ++ "\n\n[... page truncated ...]" else t
    return (t, false, st)
  else if name = "get_stock_data" then do
    let t ← req st inputs "tickers"
    let r ← liftX st (env.get_stock_data t)
    return (r, false, st)
  else if name = "remember" then do
    let c ← req st inputs "category"
    let x ← req st inputs "content"
    let v ← req st inputs "importance"
    let c ← liftX st (asStr c)
    let x ← liftX st (asStr x)
    let v ← liftX st (asInt v)
    match Memory.remember env.chromaAddFail st c x v env.now with
    | .error e => .error e
    | .ok (st1, mid) => return ("Memory saved (id=" ++ toString mid ++ ").", false, st1)
  else if name = "recall" then do
    let q ← req st inputs "query"
    let q ← liftX st (asStr q)
    let results := Memory.recall' env.sem st q 20
    if results.isEmpty then
      return ("No memories found matching that query.", false, st)
    else
      return (String.intercalate "\n" (results.map (fun r =>
        "[" ++ r.category ++ "] ★" ++ toString r.importance ++ " " ++ r.content)),
        false, st)
  else if name = "write_blog_post" then do
    let t ← req st inputs "title"
    let m ← req st inputs "markdown"
    let s ← req st inputs "summary"
    let url ← liftX st (env.write_blog_post t m s session_id)
    return ("Post published successfully!\nLive URL: " ++ url, false, st)
  else if name = "update_about" then do
    let c ← req st inputs "content"
    let _ ← liftX st (env.update_about c)
    return ("About page updated successfully.", false, st)
  else if name = "run_python" then do
    let c ← req st inputs "code"
    let out ← liftX st (env.run_python c)
    return (out, false, st)
  else if name = "fetch_rss" then do
    let u ← req st inputs "url"
    let m := (lookup inputs "max_items").getD (.i 10)
    let r ← liftX st (env.fetch_rss u m)
    return (r, false, st)
  else if name = "list_posts" then
    let posts := Memory.list_posts st 50
    if posts.isEmpty then return ("No posts published yet.", false, st)
    else
      return (String.intercalate "\n" (posts.map (fun p =>
        "[" ++ (p.published_at.getD "").take 10 ++ "] " ++ p.title ++
          " (slug: " ++ p.slug ++ ")")), false, st)
  else if name = "read_post" then do
    let s ← req st inputs "slug"
    let s ← liftX st (asStr s)
    match Memory.read_post st s with
    | none => return ("No post found with slug \x27" ++ s ++ "\x27.", false, st)
    | some p => return ("# " ++ p.title ++ "\n\n" ++ p.content_md, false, st)
  else if name = "delete_memory" then do
    let v ← req st inputs "memory_id"
    let mid ← liftX st (asInt v)
    let (st1, deleted) := Memory.delete_memory env.chromaDeleteFail st mid
    if deleted then return ("Memory " ++ toString mid ++ " deleted.", false, st1)
    else return ("No memory found with id " ++ toString mid ++ ".", false, st1)
  else if name = "get_wikipedia" then do
    let t ← req st inputs "topic"
    let r ← liftX st (env.get_wikipedia t)
    return (r, false, st)
  else if name = "get_weather" then do
    let l ← req st inputs "location"
    let r ← liftX st (env.get_weather l)
    return (r, false, st)
  else if name = "download_file" then do
    let u ← req st inputs "url"
    let p ← liftX st (env.download_file u)
    return ("File downloaded to: " ++ p, false, st)
  else if name = "set_reminder" then do
    let d ← req st inputs "date"
    let n ← req st inputs "note"
    let d ← liftX st (asStr d)
    let n ← liftX st (asStr n)
    let (st1, rid) := Memory.set_reminder st d n env.now
    return ("Reminder set (id=" ++ toString rid ++ ") for " ++ d ++ ": " ++ n,
      false, st1)
  else if name = "read_inbox" then do
    let m := (lookup inputs "max_emails").getD (.i 10)
    let r ← liftX st (env.read_inbox m)
    return (r, false, st)
  else if name = "reply_email" then do
    let m ← req st inputs "message_id"
    let b ← req st inputs "body"
    let r ← liftX st (env.reply_email m b)
    return (r, false, st)
  else if name = "end_session" then do
    let s ← req st inputs "summary"
    let s ← liftX st (asStr s)
    let st1 := Memory.end_session st session_id s actions env.now
    let _pushOutcome := env.push_session_summary session_id s
    return (s, true, st1)
  else
    return ("Unknown tool: " ++ name, false, st)

/-- `dispatch_tool` (`brain.py:294-410`): append the audit record, run the
body, and convert any exception to `("Tool error ({name}): {message}", False)`. -/
def dispatch_tool (env : Env) (st : Store) (name : String) (inputs : Inputs)
    (session_id : Nat) (actions : List ActionRec) : DispatchOut :=
  let actions := actions ++ [⟨name, inputs⟩]
  match dispatchBody env st name inputs session_id actions with
  | .ok (text, ex, st1) => ⟨text, ex, st1, actions⟩
  | .error (e, st1) => ⟨"Tool error (" ++ name ++ "): " ++ e, false, st1, actions⟩

/-- One content block of a model response: text, or a tool-use request with
its correlation id, tool name and input mapping. -/
inductive Block where
  | text (s : String)
  | tool_use (id : String) (name : String) (input : Inputs)
deriving Repr, DecidableEq

/-- A model completion: ordered content blocks plus the stop-reason tag. -/
structure ModelResponse where
  content : List Block
  stop_reason : String
deriving Repr, DecidableEq

/-- One `tool_result` entry sent back to the model, correlated by
`tool_use_id`. -/
structure ToolResult where
  tool_use_id : String
  content : String
deriving Repr, DecidableEq

/-- A message-history entry: the assistant's response content, or the user
message carrying the batch of tool results. -/
inductive Msg where
  | assistant (content : List Block)
  | user (results : List ToolResult)
deriving Repr, DecidableEq

/-- Accumulated outcome of the tool-call section of one turn
(`brain.py:456-484`). -/
structure TurnAcc where
  results : List ToolResult
  store : Store
  actions : List ActionRec
  summary : String
  exitRequested : Bool
deriving Repr

/-- Why `run_session`'s loop stopped. -/
inductive EndReason where
  | endTurn
  | protocolError
  | agentEnded
  | turnLimit
deriving Repr, DecidableEq

/-- Outcome of `run_session`: returned summary plus the final message history,
action log and store, and the loop's stop reason. -/
structure RunOut where
  summary : String
  messages : List Msg
  actions : List ActionRec
  store : Store
  reason : EndReason
deriving Repr

/-- The `for block in assistant_content` loop of one turn (`brain.py:460-484`):
dispatch every `tool_use` block in order, collect one correlated result per
request, capture `end_session`'s summary argument, and OR together the exit
flags.  Non-`tool_use` blocks are skipped. -/
def processBlocks (env : Env) (session_id : Nat) :
    List Block → Store → List ActionRec → String → Bool → TurnAcc
  | [], st, acts, summ, ex => ⟨[], st, acts, summ, ex⟩
  | .text _ :: bs, st, acts, summ, ex => processBlocks env session_id bs st acts summ ex
  | .tool_use bid bname binput :: bs, st, acts, summ, ex =>
    let d := dispatch_tool env st bname binput session_id acts
    let summ1 :=
      if bname = "end_session" then
        match lookup binput "summary" with
        | some (.s s) => s
        | _ => summ
      else summ
    let ex1 := ex || d.shouldExit
    let rest := processBlocks env session_id bs d.store d.actions summ1 ex1
    ⟨⟨bid, d.text⟩ :: rest.results, rest.store, rest.actions, rest.summary,
      rest.exitRequested⟩

/-- The turn loop of `run_session` (`brain.py:427-498`), with the remaining
turn budget as the first argument and the 0-based turn counter second.  The
model client is a script `Nat → ModelResponse` (the completion request of
turn `t` returns `script t`).  When the budget hits zero the Python
`for … else` arm runs: force-persist with the fixed fallback summary if any
actions were recorded, otherwise leave the store untouched. -/
def sessionLoop (env : Env) (script : Nat → ModelResponse) (session_id : Nat) :
    Nat → Nat → List Msg → List ActionRec → String → Store → RunOut
  | 0, _, msgs, acts, summ, st =>
    let st1 :=
      if acts.isEmpty then st
      else Memory.end_session st session_id "Session ended at turn limit." acts env.now
    ⟨summ, msgs, acts, st1, .turnLimit⟩
  | rem + 1, turn, msgs, acts, summ, st =>
    let resp := script turn
    let msgs1 := msgs ++ [.assistant resp.content]
    if resp.stop_reason = "end_turn" then ⟨summ, msgs1, acts, st, .endTurn⟩
    else if resp.stop_reason ≠ "tool_use" then ⟨summ, msgs1, acts, st, .protocolError⟩
    else
      let acc := processBlocks env session_id resp.content st acts summ false
      let msgs2 := msgs1 ++ [.user acc.results]
      if acc.exitRequested then ⟨acc.summary, msgs2, acc.actions, acc.store, .agentEnded⟩
      else sessionLoop env script session_id rem (turn + 1) msgs2 acc.actions acc.summary acc.store

/-- `run_session` (`brain.py:415-498`): empty history, empty action log, and
the placeholder summary, then at most `maxTurns` turns. -/
def run_session (env : Env) (script : Nat → ModelResponse) (session_id : Nat)
    (maxTurns : Nat) (st : Store) : RunOut :=
  sessionLoop env script session_id maxTurns 0 [] [] "Session ended without summary." st

/-- A store with one relational memory whose index entry is missing (e.g. the
Chroma volume was wiped while SQLite survived — the situation `init_db`'s
resync exists for). -/
def skyStore : Store :=
  ⟨[⟨1, "fact", "The sky is blue", 3, "2026-01-01T00:00:00+00:00"⟩],
   [], [⟨1, "2026-01-01T00:00:00+00:00", none, none, []⟩], [], [], 2, 1, 2, 1⟩

/-- A trivially deterministic similarity oracle: the first `n` entries. -/
def takeOracle : SemOracle := fun idx _ n => idx.take n

/-- A concrete healthy environment for witnesses: every collaborator
succeeds. -/
def sampleEnv : Env :=
  { now := "2026-01-02T00:00:00+00:00"
    sem := takeOracle
    chromaAddFail := none
    chromaDeleteFail := false
    web_search := fun _ => .ok "results"
    web_browse := fun _ => .ok "page text"
    get_stock_data := fun _ => .ok "ohlcv"
    write_blog_post := fun _ _ _ _ => .ok "https://example.test/post"
    update_about := fun _ => .ok ""
    run_python := fun _ => .ok "42"
    fetch_rss := fun _ _ => .ok "items"
    get_wikipedia := fun _ => .ok "extract"
    get_weather := fun _ => .ok "sunny"
    download_file := fun _ => .ok "/tmp/agent_downloads/f"
    read_inbox := fun _ => .ok "messages"
    reply_email := fun _ _ => .ok "Reply sent."
    push_session_summary := fun _ _ => .ok "" }

/-- Like `sampleEnv` but `web_search` raises `Boom`. -/
def boomEnv : Env := { sampleEnv with web_search := fun _ => .error "Boom" }

/-- A scripted model for the batch-termination witness: turn 0 answers with an
`end_session` call followed by two further tool calls, all in one response. -/
def batchScript : Nat → ModelResponse := fun _ =>
  ⟨[.tool_use "tu1" "end_session" [("summary", .s "did things")],
    .tool_use "tu2" "get_weather" [("location", .s "London")],
    .tool_use "tu3" "run_python" [("code", .s "print(1)")]],
   "tool_use"⟩

/-- A scripted model that always requests a single non-terminating tool call. -/
def busyScript : Nat → ModelResponse := fun _ =>
  ⟨[.tool_use "tu" "get_weather" [("location", .s "London")]], "tool_use"⟩

/-- The store left behind by `Memory.remember`, whether or not the unguarded
Chroma `add` raised (the SQLite insert is committed first either way). -/
def rememberedStore (r : Except (String × Store) (Store × Nat)) : Store :=
  match r with
  | .ok (s, _) => s
  | .error (_, s) => s

/-- The correlation ids of the tool_use blocks of a response, in order. -/
def toolUseIds (bs : List Block) : List String :=
  bs.filterMap (fun b => match b with
    | .tool_use i _ _ => some i
    | _ => none)

/-- One audit record per tool_use block of a response, in order. -/
def toolUseActions (bs : List Block) : List ActionRec :=
  bs.filterMap (fun b => match b with
    | .tool_use _ n inp => some ⟨n, inp⟩
    | _ => none)

/-- Invariant of a dispatch-body computation: no successful outcome requests
an exit. -/
def NoExit (m : ExceptSt (String × Bool × Store)) : Prop :=
  ∀ t ex st1, m = .ok (t, ex, st1) → ex = false

/-- Invariant of a dispatch-body computation: every outcome, success or
exception, leaves the sessions table equal to `s0`. -/
def SessionsStable (s0 : List SessionRow)
    (m : ExceptSt (String × Bool × Store)) : Prop :=
  (∀ t ex st1, m = .ok (t, ex, st1) → st1.sessions = s0) ∧
  (∀ e st1, m = .error (e, st1) → st1.sessions = s0)

/-- A store holding one published post, for the upsert witness. -/
def helloStore : Store :=
  ⟨[], [⟨1, "Old title", "hello", "old body", 4, some "t0", none, none⟩],
   [], [], [], 1, 2, 1, 1⟩

/-- An entirely empty store. -/
def emptyStore : Store := ⟨[], [], [], [], [], 1, 1, 1, 1⟩

/-! Helper lemmas: the insertion sort and the collation order. -/

theorem mem_insBy {le : α → α → Bool} {a x : α} {l : List α} :
    x ∈ insBy le a l ↔ x = a ∨ x ∈ l := by
  induction l with
  | nil => simp [insBy]
  | cons b bs ih =>
    by_cases h : le a b = true
    · simp [insBy, h]
    · simp only [insBy, if_neg h, List.mem_cons, ih]
      tauto

theorem mem_insSortBy {le : α → α → Bool} {x : α} {l : List α} :
    x ∈ insSortBy le l ↔ x ∈ l := by
  induction l with
  | nil => simp [insSortBy]
  | cons b bs ih => simp [insSortBy, mem_insBy, ih]

theorem pairwise_insBy {le : α → α → Bool}
    (htot : ∀ a b, (le a b || le b a) = true)
    (htrans : ∀ a b c, le a b = true → le b c = true → le a c = true)
    (a : α) {l : List α} (h : l.Pairwise (fun x y => le x y = true)) :
    (insBy le a l).Pairwise (fun x y => le x y = true) := by
  induction l with
  | nil => simp [insBy]
  | cons b bs ih =>
    rcases List.pairwise_cons.mp h with ⟨hb, hbs⟩
    by_cases hab : le a b = true
    · rw [insBy, if_pos hab]
      refine List.pairwise_cons.mpr ⟨?_, h⟩
      intro x hx
      rcases List.mem_cons.mp hx with rfl | hx
      · exact hab
      · exact htrans a b x hab (hb x hx)
    · have hba : le b a = true := by
        have htot' := htot a b
        simp [hab] at htot'
        exact htot'
      rw [insBy, if_neg hab]
      refine List.pairwise_cons.mpr ⟨?_, ih hbs⟩
      intro x hx
      rcases mem_insBy.mp hx with rfl | hx
      · exact hba
      · exact hb x hx

theorem pairwise_insSortBy {le : α → α → Bool}
    (htot : ∀ a b, (le a b || le b a) = true)
    (htrans : ∀ a b c, le a b = true → le b c = true → le a c = true)
    (l : List α) :
    (insSortBy le l).Pairwise (fun x y => le x y = true) := by
  induction l with
  | nil => simp [insSortBy]
  | cons b bs ih => exact pairwise_insBy htot htrans b ih

theorem charListLeb_total : ∀ a b : List Char, (charListLeb a b || charListLeb b a) = true
  | [], _ => by simp [charListLeb]
  | _ :: _, [] => by simp [charListLeb]
  | x :: xs, y :: ys => by
    by_cases h1 : x < y
    · simp [charListLeb, h1]
    · by_cases h2 : y < x
      · simp [charListLeb, h1, h2]
      · simpa [charListLeb, h1, h2] using charListLeb_total xs ys

theorem charListLeb_trans : ∀ a b c : List Char, charListLeb a b = true →
    charListLeb b c = true → charListLeb a c = true
  | [], _, _, _, _ => by simp [charListLeb]
  | x :: xs, [], _, h1, _ => by simp [charListLeb] at h1
  | x :: xs, y :: ys, [], _, h2 => by simp [charListLeb] at h2
  | x :: xs, y :: ys, z :: zs, h1, h2 => by
    by_cases hxy : x < y
    · by_cases hyz : y < z
      · simp [charListLeb, lt_trans hxy hyz]
      · by_cases hzy : z < y
        · simp [charListLeb, hyz, hzy] at h2
        · have : y = z := le_antisymm (not_lt.mp hzy) (not_lt.mp hyz)
          subst this
          simp [charListLeb, hxy]
    · by_cases hyx : y < x
      · simp [charListLeb, hxy, hyx] at h1
      · have hxyeq : x = y := le_antisymm (not_lt.mp hyx) (not_lt.mp hxy)
        subst hxyeq
        simp only [charListLeb, if_neg (lt_irrefl x)] at h1
        by_cases hxz : x < z
        · simp [charListLeb, hxz]
        · by_cases hzx : z < x
          · simp [charListLeb, hxz, hzx] at h2
          · simp only [charListLeb, if_neg hxz, if_neg hzx] at h2 ⊢
            exact charListLeb_trans xs ys zs h1 h2

theorem strLeb_total (a b : String) : (strLeb a b || strLeb b a) = true :=
  charListLeb_total a.toList b.toList

theorem strLeb_trans (a b c : String) (h1 : strLeb a b = true)
    (h2 : strLeb b c = true) : strLeb a c = true :=
  charListLeb_trans a.toList b.toList c.toList h1 h2

/-- Re-marking already-triggered reminders does not change which rows pass the
due filter: rows hit by the marking were already non-NULL, rows missed are
untouched. -/
theorem due_filter_after_remark (ids : List Nat) (now3 today : String) :
    ∀ rs : List ReminderRow,
      (∀ r ∈ rs, ids.contains r.id = true → r.triggered_at.isSome) →
      ((rs.map (fun r => if ids.contains r.id then { r with triggered_at := some now3 }
          else r)).filter (fun r => strLeb r.due_date today && r.triggered_at.isNone) =
        rs.filter (fun r => strLeb r.due_date today && r.triggered_at.isNone))
  | [], _ => rfl
  | r :: rs, h => by
    have htail := due_filter_after_remark ids now3 today rs
      (fun x hx => h x (List.mem_cons_of_mem _ hx))
    rw [List.map_cons]
    by_cases hc : ids.contains r.id = true
    · have hsome : r.triggered_at.isSome := h r (List.mem_cons_self _ _) hc
      obtain ⟨t, ht⟩ := Option.isSome_iff_exists.mp hsome
      rw [if_pos hc, List.filter_cons, List.filter_cons]
      have h1 : (strLeb ({ r with triggered_at := some now3 } : ReminderRow).due_date today
          && ({ r with triggered_at := some now3 } : ReminderRow).triggered_at.isNone) = false := by
        simp
      have h2 : (strLeb r.due_date today && r.triggered_at.isNone) = false := by
        simp [ht]
      rw [h1, h2]
      simpa using htail
    · rw [if_neg hc, List.filter_cons, List.filter_cons, htail]

/-- C1 (counterexample): with one relational memory containing "sky" but an
empty semantic index, `recall` returns `[]`, not the substring-fallback
ranking the claim describes — the claimed fallback does not exist in
`memory.py recall`. -/
theorem C1_counterexample :
    Memory.recall' takeOracle skyStore "sky" 20 = [] ∧
    spec_recall_fallback skyStore "sky" 20 = [⟨1, "fact", "The sky is blue", 3⟩] ∧
    Memory.recall' takeOracle skyStore "sky" 20 ≠ spec_recall_fallback skyStore "sky" 20 := by
  refine ⟨rfl, by decide, by decide⟩

/-- C1 (amended): if the semantic index is empty, `recall(query, limit)`
returns the empty list; no substring fallback over content and category is
performed. -/
theorem C1_recall_empty_index (sem : SemOracle) (st : Store) (q : String)
    (lim : Nat) (h : st.index = []) : Memory.recall' sem st q lim = [] := by
  simp [Memory.recall', h]

/-- C1 witness: the amended theorem applied at a concrete store whose index is
empty. -/
theorem C1_recall_empty_index_witness :
    Memory.recall' takeOracle skyStore "sky" 20 = [] :=
  C1_recall_empty_index takeOracle skyStore "sky" 20 rfl

/-- C5: `delete_memory` removes the relational row and reports whether a row
was deleted; the report is the relational `rowcount` alone, identical whether
or not the Chroma delete failed; and a second call with the same id reports
false because the relational store decides existence. -/
theorem C5_delete_memory_best_effort (f f' : Bool) (st : Store) (mid : Int) :
    (Memory.delete_memory f st mid).1.memories =
        st.memories.filter (fun r => (r.id : Int) != mid) ∧
    (Memory.delete_memory f st mid).2 =
        st.memories.any (fun r => (r.id : Int) == mid) ∧
    (Memory.delete_memory f st mid).2 = (Memory.delete_memory f' st mid).2 ∧
    (Memory.delete_memory f' (Memory.delete_memory f st mid).1 mid).2 = false := by
  refine ⟨?_, rfl, rfl, ?_⟩
  · simp only [Memory.delete_memory]
    split_ifs <;> rfl
  · have hmem : (Memory.delete_memory f st mid).1.memories =
        st.memories.filter (fun r => (r.id : Int) != mid) := by
      simp only [Memory.delete_memory]
      split_ifs <;> rfl
    show (Memory.delete_memory f st mid).1.memories.any
        (fun r => (r.id : Int) == mid) = false
    rw [hmem]
    simp only [List.any_eq_false]
    intro r hr
    have := (List.mem_filter.mp hr).2
    simpa using this

/-- C7: `remember` stores the relational row with importance
`max(1, min(5, v))`, whether or not the unguarded Chroma add failed, and the
stored value lies in `[1, 5]`. -/
theorem C7_remember_clamps (fl : Option String) (st : Store) (c x : String)
    (v : Int) (now : String) :
    (rememberedStore (Memory.remember fl st c x v now)).memories =
      st.memories ++ [⟨st.nextMemId, c, x, max 1 (min 5 v), now⟩] ∧
    (1 : Int) ≤ max 1 (min 5 v) ∧ max 1 (min 5 v) ≤ 5 := by
  refine ⟨?_, le_max_left _ _, max_le (by norm_num) (min_le_left _ _)⟩
  cases fl <;> rfl

/-- C8: the reminder lifecycle.  A reminder set for date `d` is included in
`get_due_reminders today` exactly when `d <= today` (it starts untriggered);
due lists are ordered by due date ascending; after
`mark_reminders_triggered [id]` the reminder is excluded from every later
due query; and re-marking the same ids again is a no-op in effect (every due
query returns the same rows). -/
theorem C8_reminder_lifecycle (st st2 : Store)
    (d note now now2 now3 today today2 today3 : String) (ids : List Nat) :
    ((⟨st.nextReminderId, d, note, now, none⟩ : ReminderRow) ∈
        Memory.get_due_reminders (Memory.set_reminder st d note now).1 today
      ↔ strLeb d today = true) ∧
    List.Pairwise (fun a b => strLeb a.due_date b.due_date = true)
      (Memory.get_due_reminders st2 today2) ∧
    (∀ r ∈ Memory.get_due_reminders
        (Memory.mark_reminders_triggered (Memory.set_reminder st d note now).1
          [st.nextReminderId] now2) today3,
      r.id ≠ st.nextReminderId) ∧
    (Memory.get_due_reminders
        (Memory.mark_reminders_triggered
          (Memory.mark_reminders_triggered st2 ids now2) ids now3) today2 =
      Memory.get_due_reminders (Memory.mark_reminders_triggered st2 ids now2) today2) := by
  refine ⟨?_, ?_, ?_, ?_⟩
  · constructor
    · intro h
      have hp := (List.mem_filter.mp (mem_insSortBy.mp h)).2
      simpa using hp
    · intro h
      apply mem_insSortBy.mpr
      apply List.mem_filter.mpr
      exact ⟨by simp [Memory.set_reminder], by simp [h]⟩
  · exact pairwise_insSortBy
      (fun a b => strLeb_total a.due_date b.due_date)
      (fun a b c h1 h2 => strLeb_trans a.due_date b.due_date c.due_date h1 h2) _
  · intro r hr
    have hr1 := List.mem_filter.mp (mem_insSortBy.mp hr)
    have hmap : r ∈ ((Memory.set_reminder st d note now).1.reminders.map
        (fun q => if List.contains [st.nextReminderId] q.id then
          { q with triggered_at := some now2 } else q)) := by
      simpa [Memory.mark_reminders_triggered] using hr1.1
    obtain ⟨q, hq, hfq⟩ := List.mem_map.mp hmap
    by_cases hc : List.contains [st.nextReminderId] q.id = true
    · rw [if_pos hc] at hfq
      have := hr1.2
      rw [← hfq] at this
      simp at this
    · rw [if_neg hc] at hfq
      subst hfq
      intro hid
      exact hc (by simp [hid])
  · by_cases hids : ids.isEmpty
    · simp [Memory.mark_reminders_triggered, hids]
    · have hcond : ids.isEmpty = true ↔ False := by simp [hids]
      simp only [Memory.mark_reminders_triggered, hids, Bool.false_eq_true, if_false]
      unfold Memory.get_due_reminders
      congr 1
      apply due_filter_after_remark
      intro r hr hc
      obtain ⟨q, hq, hfq⟩ := List.mem_map.mp hr
      by_cases hcq : List.contains ids q.id = true
      · rw [if_pos hcq] at hfq
        rw [← hfq]
        rfl
      · rw [if_neg hcq] at hfq
        subst hfq
        exact absurd hc hcq

/-- C8 witness: a reminder set for 2099-01-01 in an empty store is returned
by a due query on 2099-01-02. -/
theorem C8_reminder_lifecycle_witness :
    (⟨1, "2099-01-01", "check X", "t0", none⟩ : ReminderRow) ∈
      Memory.get_due_reminders
        (Memory.set_reminder emptyStore "2099-01-01" "check X" "t0").1
        "2099-01-02" :=
  (C8_reminder_lifecycle emptyStore emptyStore "2099-01-01" "check X" "t0"
    "t1" "t2" "2099-01-02" "2099-01-02" "2099-01-02" []).1.mpr (by decide)

/-- C9: `save_post` on an existing slug overwrites content_md, published_at,
twitter_url and bluesky_url of the existing row but keeps its title and
session_id from the original insert. -/
theorem C9_save_post_preserves_title_session (st : Store) (r : PostRow)
    (t' c' : String) (sid' : Nat) (now : String) (tw bl : Option String)
    (hr : r ∈ st.posts) (huniq : ∀ p ∈ st.posts, p.slug = r.slug → p = r) :
    ({ r with
        content_md := c',
        published_at := some now,
        twitter_url := tw,
        bluesky_url := bl } ∈
      (Memory.save_post st t' r.slug c' sid' now tw bl).posts) ∧
    (∀ p ∈ (Memory.save_post st t' r.slug c' sid' now tw bl).posts,
      p.slug = r.slug →
        p.title = r.title ∧ p.session_id = r.session_id ∧ p.content_md = c' ∧
        p.published_at = some now ∧ p.twitter_url = tw ∧ p.bluesky_url = bl) := by
  have hany : st.posts.any (fun p => p.slug == r.slug) = true := by
    rw [List.any_eq_true]
    exact ⟨r, hr, by simp⟩
  rw [Memory.save_post, if_pos hany]
  constructor
  · have himg : (fun p => if p.slug == r.slug then
        { p with
            content_md := c',
            published_at := some now,
            twitter_url := tw,
            bluesky_url := bl } else p) r =
      { r with
          content_md := c',
          published_at := some now,
          twitter_url := tw,
          bluesky_url := bl } := by
      simp
    exact himg ▸ List.mem_map_of_mem _ hr
  · intro p hp hslug
    obtain ⟨q, hq, hfq⟩ := List.mem_map.mp hp
    by_cases hc : q.slug == r.slug
    · have : q = r := huniq q hq (by simpa using hc)
      subst this
      rw [if_pos hc] at hfq
      subst hfq
      simp
    · rw [if_neg hc] at hfq
      subst hfq
      exact absurd (by simp [hslug]) hc

/-- C9 witness: the upsert applied to a concrete store with an existing row
under slug "hello". -/
theorem C9_save_post_witness :
    ({ id := 1, title := "Old title", slug := "hello", content_md := "new body",
       session_id := 4, published_at := some "t1", twitter_url := some "tw",
       bluesky_url := none } : PostRow) ∈
      (Memory.save_post helloStore "New title" "hello" "new body" 9 "t1"
        (some "tw") none).posts :=
  (C9_save_post_preserves_title_session helloStore
    ⟨1, "Old title", "hello", "old body", 4, some "t0", none, none⟩
    "New title" "new body" 9 "t1" (some "tw") none (by simp [helloStore])
    (by intro p hp _; simpa [helloStore] using hp)).1

/-- C6: for every registered tool name, an exception raised while executing
its handler is caught and converted to `("Tool error ({name}): {message}",
false)` instead of propagating, and the audit record `{name, inputs}` was
appended before the handler ran, so it is present in the action list even on
failure. -/
theorem C6_handler_error_converted (env : Env) (st st' : Store) (name : String)
    (inputs : Inputs) (sid : Nat) (acts : List ActionRec) (e : String)
    (_hname : name ∈ toolNames)
    (herr : dispatchBody env st name inputs sid (acts ++ [⟨name, inputs⟩]) =
      .error (e, st')) :
    dispatch_tool env st name inputs sid acts =
      ⟨"Tool error (" ++ name ++ "): " ++ e, false, st',
       acts ++ [⟨name, inputs⟩]⟩ := by
  simp [dispatch_tool, herr]

/-- C6 witness: a `web_search` handler that raises `Boom` yields the error
text, no exit, and the action still recorded. -/
theorem C6_handler_error_witness :
    dispatch_tool boomEnv emptyStore "web_search" [("query", JVal.s "x")] 1 [] =
      ⟨"Tool error (web_search): Boom", false, emptyStore,
       [⟨"web_search", [("query", JVal.s "x")]⟩]⟩ :=
  C6_handler_error_converted boomEnv emptyStore emptyStore "web_search"
    [("query", JVal.s "x")] 1 [] "Boom" (by decide) rfl

/-- C4 (stated via its contrapositive): for every registered tool, if some
field of the tool's declared required list is missing from the inputs, the
dispatch raises `KeyError` before any handler runs — the outcome is the same
for every environment (so no collaborator, Chroma or clock oracle was
consulted), the store is unchanged, no exit is requested, the audit record is
still appended, and the text reports the KeyError of a required field.
Equivalently: whenever a handler executes, every declared required field was
present in the structured inputs. -/
theorem C4_required_fields_checked (env env' : Env) (st : Store) (name : String)
    (inputs : Inputs) (sid : Nat) (acts : List ActionRec)
    (hname : name ∈ toolNames)
    (hmiss : ∃ f ∈ requiredFields name, lookup inputs f = none) :
    dispatch_tool env st name inputs sid acts =
      dispatch_tool env' st name inputs sid acts ∧
    (dispatch_tool env st name inputs sid acts).store = st ∧
    (dispatch_tool env st name inputs sid acts).shouldExit = false ∧
    (dispatch_tool env st name inputs sid acts).actions =
      acts ++ [⟨name, inputs⟩] ∧
    ∃ f ∈ requiredFields name,
      (dispatch_tool env st name inputs sid acts).text =
        "Tool error (" ++ name ++ "): " ++ pyKeyError f := by
  have hkey : ∃ g ∈ requiredFields name, ∀ env₀ : Env,
      dispatch_tool env₀ st name inputs sid acts =
        ⟨"Tool error (" ++ name ++ "): " ++ pyKeyError g, false, st,
         acts ++ [⟨name, inputs⟩]⟩ := by
    simp only [toolNames, TOOLS, List.map_cons, List.map_nil, List.mem_cons,
      List.not_mem_nil, or_false] at hname
    rcases hname with rfl|rfl|rfl|rfl|rfl|rfl|rfl|rfl|rfl|rfl|rfl|rfl|rfl|rfl|rfl|rfl|rfl|rfl|rfl
    · -- web_search
      rcases hmiss with ⟨f, hf, hnone⟩
      rcases List.mem_singleton.mp hf with rfl
      exact ⟨"query", by decide, fun env₀ => by
        simp [dispatch_tool, dispatchBody, req, hnone]; rfl⟩
    · -- web_browse
      rcases hmiss with ⟨f, hf, hnone⟩
      rcases List.mem_singleton.mp hf with rfl
      exact ⟨"url", by decide, fun env₀ => by
        simp [dispatch_tool, dispatchBody, req, hnone]; rfl⟩
    · -- get_stock_data
      rcases hmiss with ⟨f, hf, hnone⟩
      rcases List.mem_singleton.mp hf with rfl
      exact ⟨"tickers", by decide, fun env₀ => by
        simp [dispatch_tool, dispatchBody, req, hnone]; rfl⟩
    · -- remember
      rcases hmiss with ⟨f, hf, hnone⟩
      rcases h1 : lookup inputs "category" with _ | v1
      · exact ⟨"category", by decide, fun env₀ => by
          simp [dispatch_tool, dispatchBody, req, h1]; rfl⟩
      · rcases h2 : lookup inputs "content" with _ | v2
        · exact ⟨"content", by decide, fun env₀ => by
            simp [dispatch_tool, dispatchBody, req, h1, h2]; rfl⟩
        · rcases h3 : lookup inputs "importance" with _ | v3
          · exact ⟨"importance", by decide, fun env₀ => by
              simp [dispatch_tool, dispatchBody, req, h1, h2, h3]; rfl⟩
          · exfalso
            rw [show requiredFields "remember" =
              ["category", "content", "importance"] from rfl] at hf
            simp only [List.mem_cons, List.not_mem_nil, or_false] at hf
            rcases hf with rfl | rfl | rfl
            · simp [h1] at hnone
            · simp [h2] at hnone
            · simp [h3] at hnone
    · -- recall
      rcases hmiss with ⟨f, hf, hnone⟩
      rcases List.mem_singleton.mp hf with rfl
      exact ⟨"query", by decide, fun env₀ => by
        simp [dispatch_tool, dispatchBody, req, hnone]; rfl⟩
    · -- write_blog_post
      rcases hmiss with ⟨f, hf, hnone⟩
      rcases h1 : lookup inputs "title" with _ | v1
      · exact ⟨"title", by decide, fun env₀ => by
          simp [dispatch_tool, dispatchBody, req, h1]; rfl⟩
      · rcases h2 : lookup inputs "markdown" with _ | v2
        · exact ⟨"markdown", by decide, fun env₀ => by
            simp [dispatch_tool, dispatchBody, req, h1, h2]; rfl⟩
        · rcases h3 : lookup inputs "summary" with _ | v3
          · exact ⟨"summary", by decide, fun env₀ => by
              simp [dispatch_tool, dispatchBody, req, h1, h2, h3]; rfl⟩
          · exfalso
            rw [show requiredFields "write_blog_post" =
              ["title", "markdown", "summary"] from rfl] at hf
            simp only [List.mem_cons, List.not_mem_nil, or_false] at hf
            rcases hf with rfl | rfl | rfl
            · simp [h1] at hnone
            · simp [h2] at hnone
            · simp [h3] at hnone
    · -- update_about
      rcases hmiss with ⟨f, hf, hnone⟩
      rcases List.mem_singleton.mp hf with rfl
      exact ⟨"content", by decide, fun env₀ => by
        simp [dispatch_tool, dispatchBody, req, hnone]; rfl⟩
    · -- run_python
      rcases hmiss with ⟨f, hf, hnone⟩
      rcases List.mem_singleton.mp hf with rfl
      exact ⟨"code", by decide, fun env₀ => by
        simp [dispatch_tool, dispatchBody, req, hnone]; rfl⟩
    · -- fetch_rss
      rcases hmiss with ⟨f, hf, hnone⟩
      rcases List.mem_singleton.mp hf with rfl
      exact ⟨"url", by decide, fun env₀ => by
        simp [dispatch_tool, dispatchBody, req, hnone]; rfl⟩
    · -- list_posts: no required fields
      rcases hmiss with ⟨f, hf, _⟩
      exact absurd hf (List.not_mem_nil f)
    · -- read_post
      rcases hmiss with ⟨f, hf, hnone⟩
      rcases List.mem_singleton.mp hf with rfl
      exact ⟨"slug", by decide, fun env₀ => by
        simp [dispatch_tool, dispatchBody, req, hnone]; rfl⟩
    · -- delete_memory
      rcases hmiss with ⟨f, hf, hnone⟩
      rcases List.mem_singleton.mp hf with rfl
      exact ⟨"memory_id", by decide, fun env₀ => by
        simp [dispatch_tool, dispatchBody, req, hnone]; rfl⟩
    · -- get_wikipedia
      rcases hmiss with ⟨f, hf, hnone⟩
      rcases List.mem_singleton.mp hf with rfl
      exact ⟨"topic", by decide, fun env₀ => by
        simp [dispatch_tool, dispatchBody, req, hnone]; rfl⟩
    · -- get_weather
      rcases hmiss with ⟨f, hf, hnone⟩
      rcases List.mem_singleton.mp hf with rfl
      exact ⟨"location", by decide, fun env₀ => by
        simp [dispatch_tool, dispatchBody, req, hnone]; rfl⟩
    · -- download_file
      rcases hmiss with ⟨f, hf, hnone⟩
      rcases List.mem_singleton.mp hf with rfl
      exact ⟨"url", by decide, fun env₀ => by
        simp [dispatch_tool, dispatchBody, req, hnone]; rfl⟩
    · -- set_reminder
      rcases hmiss with ⟨f, hf, hnone⟩
      rcases h1 : lookup inputs "date" with _ | v1
      · exact ⟨"date", by decide, fun env₀ => by
          simp [dispatch_tool, dispatchBody, req, h1]; rfl⟩
      · rcases h2 : lookup inputs "note" with _ | v2
        · exact ⟨"note", by decide, fun env₀ => by
            simp [dispatch_tool, dispatchBody, req, h1, h2]; rfl⟩
        · exfalso
          rw [show requiredFields "set_reminder" = ["date", "note"] from rfl] at hf
          simp only [List.mem_cons, List.not_mem_nil, or_false] at hf
          rcases hf with rfl | rfl
          · simp [h1] at hnone
          · simp [h2] at hnone
    · -- read_inbox: no required fields
      rcases hmiss with ⟨f, hf, _⟩
      exact absurd hf (List.not_mem_nil f)
    · -- reply_email
      rcases hmiss with ⟨f, hf, hnone⟩
      rcases h1 : lookup inputs "message_id" with _ | v1
      · exact ⟨"message_id", by decide, fun env₀ => by
          simp [dispatch_tool, dispatchBody, req, h1]; rfl⟩
      · rcases h2 : lookup inputs "body" with _ | v2
        · exact ⟨"body", by decide, fun env₀ => by
            simp [dispatch_tool, dispatchBody, req, h1, h2]; rfl⟩
        · exfalso
          rw [show requiredFields "reply_email" = ["message_id", "body"] from rfl] at hf
          simp only [List.mem_cons, List.not_mem_nil, or_false] at hf
          rcases hf with rfl | rfl
          · simp [h1] at hnone
          · simp [h2] at hnone
    · -- end_session
      rcases hmiss with ⟨f, hf, hnone⟩
      rcases List.mem_singleton.mp hf with rfl
      exact ⟨"summary", by decide, fun env₀ => by
        simp [dispatch_tool, dispatchBody, req, hnone]; rfl⟩
  obtain ⟨g, hg, hd⟩ := hkey
  exact ⟨(hd env).trans (hd env').symm, by rw [hd env], by rw [hd env],
    by rw [hd env], ⟨g, hg, by rw [hd env]⟩⟩

/-- C4 witness: `web_search` dispatched with empty inputs behaves identically
under two different environments, leaves the store untouched, appends the
audit record, and reports the KeyError of the missing required field. -/
theorem C4_required_fields_witness :
    dispatch_tool sampleEnv emptyStore "web_search" [] 1 [] =
      dispatch_tool boomEnv emptyStore "web_search" [] 1 [] ∧
    (dispatch_tool sampleEnv emptyStore "web_search" [] 1 []).store = emptyStore ∧
    (dispatch_tool sampleEnv emptyStore "web_search" [] 1 []).shouldExit = false ∧
    (dispatch_tool sampleEnv emptyStore "web_search" [] 1 []).actions =
      [] ++ [⟨"web_search", []⟩] ∧
    ∃ f ∈ requiredFields "web_search",
      (dispatch_tool sampleEnv emptyStore "web_search" [] 1 []).text =
        "Tool error (" ++ "web_search" ++ "): " ++ pyKeyError f :=
  C4_required_fields_checked sampleEnv boomEnv emptyStore "web_search" [] 1 []
    (by decide) ⟨"query", by decide, rfl⟩

/-! Dispatcher invariants used by the orchestrator claims. -/

theorem noExit_pure (x : String) (st1 : Store) :
    NoExit (pure (x, false, st1)) := by
  intro t ex s h
  have h2 := Except.ok.inj h
  have h3 : ((x, false, st1) : String × Bool × Store).2.1 = (t, ex, s).2.1 :=
    congrArg (fun p => p.2.1) h2
  exact h3.symm

theorem noExit_error (e : String × Store) :
    NoExit (Except.error e) := by
  intro t ex s h
  simp at h

theorem noExit_bind {α : Type} {m : ExceptSt α}
    {f : α → ExceptSt (String × Bool × Store)}
    (h : ∀ a, NoExit (f a)) : NoExit (m >>= f) := by
  intro t ex s hm
  cases m with
  | error e => simp [Bind.bind, Except.bind] at hm
  | ok a => exact h a t ex s (by simpa [Bind.bind, Except.bind] using hm)

theorem noExit_map {α : Type} (f : α → String × Bool × Store) (m : ExceptSt α)
    (h : ∀ a, (f a).2.1 = false) : NoExit (f <$> m) := by
  intro t ex s hm
  cases m with
  | error e => simp [Functor.map, Except.map] at hm
  | ok a =>
    have h2 : f a = (t, ex, s) := by
      simpa [Functor.map, Except.map] using hm
    have h3 : (f a).2.1 = ex := congrArg (fun p => p.2.1) h2
    rw [h a] at h3
    exact h3.symm

theorem noExit_ite {c : Prop} [Decidable c]
    {A B : ExceptSt (String × Bool × Store)}
    (hA : c → NoExit A) (hB : ¬c → NoExit B) :
    NoExit (if c then A else B) := by
  by_cases h : c
  · rw [if_pos h]; exact hA h
  · rw [if_neg h]; exact hB h

theorem noExit_matchExcept {α β : Type} (m : Except α β)
    (f : α → ExceptSt (String × Bool × Store))
    (g : β → ExceptSt (String × Bool × Store))
    (hf : ∀ e, NoExit (f e)) (hg : ∀ b, NoExit (g b)) :
    NoExit (match m with | .error e => f e | .ok b => g b) := by
  cases m with
  | error e => exact hf e
  | ok b => exact hg b

theorem noExit_matchOption {β : Type} (m : Option β)
    (f : ExceptSt (String × Bool × Store))
    (g : β → ExceptSt (String × Bool × Store))
    (hf : NoExit f) (hg : ∀ b, NoExit (g b)) :
    NoExit (match m with | none => f | some b => g b) := by
  cases m with
  | none => exact hf
  | some b => exact hg b

set_option maxHeartbeats 1000000 in
theorem dispatchBody_noExit (env : Env) (st : Store) (name : String)
    (inputs : Inputs) (sid : Nat) (acts : List ActionRec)
    (hn : name ≠ "end_session") :
    NoExit (dispatchBody env st name inputs sid acts) := by
  unfold dispatchBody
  repeat' first
    | exact absurd ‹name = "end_session"› hn
    | exact noExit_pure _ _
    | exact noExit_error _
    | exact noExit_map _ _ (fun a => rfl)
    | (refine noExit_bind (fun a => ?_))
    | (refine noExit_ite (fun hcnd => ?_) (fun hcnd => ?_))
    | (refine noExit_matchExcept _ _ _ (fun e => ?_) (fun b => ?_))
    | (refine noExit_matchOption _ _ _ ?_ (fun b => ?_))
    | split

theorem dispatch_exit_only_end (env : Env) (st : Store) (name : String)
    (inputs : Inputs) (sid : Nat) (acts : List ActionRec)
    (hn : name ≠ "end_session") :
    (dispatch_tool env st name inputs sid acts).shouldExit = false := by
  have hb := dispatchBody_noExit env st name inputs sid
    (acts ++ [⟨name, inputs⟩]) hn
  unfold dispatch_tool
  cases hB : dispatchBody env st name inputs sid (acts ++ [⟨name, inputs⟩]) with
  | error e => obtain ⟨e1, st1⟩ := e; simp [hB]
  | ok o =>
    obtain ⟨t, ex, st1⟩ := o
    simp only [hB]
    exact hb t ex st1 hB

theorem dispatch_actions_append (env : Env) (st : Store) (name : String)
    (inputs : Inputs) (sid : Nat) (acts : List ActionRec) :
    (dispatch_tool env st name inputs sid acts).actions =
      acts ++ [⟨name, inputs⟩] := by
  unfold dispatch_tool
  cases hB : dispatchBody env st name inputs sid (acts ++ [⟨name, inputs⟩]) with
  | error e => obtain ⟨e1, st1⟩ := e; simp [hB]
  | ok o => obtain ⟨t, ex, st1⟩ := o; simp [hB]

theorem sessionsStable_pure {s0 : List SessionRow} (x : String) (b : Bool)
    (st1 : Store) (h : st1.sessions = s0) :
    SessionsStable s0 (pure (x, b, st1)) := by
  constructor
  · intro t ex s hok
    have h2 := Except.ok.inj hok
    have h3 : st1 = s := congrArg (fun p => p.2.2) h2
    exact h3 ▸ h
  · intro e s herr
    simp [pure, Except.pure] at herr

theorem sessionsStable_error_of {s0 : List SessionRow} (p : String × Store)
    (h : p.2.sessions = s0) : SessionsStable s0 (Except.error p) := by
  constructor
  · intro t ex s hok
    simp at hok
  · intro e s herr
    have h2 := Except.error.inj herr
    have h3 : p.2 = s := congrArg (fun q => q.2) h2
    exact h3 ▸ h

theorem sessionsStable_bind {α : Type} {s0 : List SessionRow} {m : ExceptSt α}
    {f : α → ExceptSt (String × Bool × Store)}
    (hm : ∀ e st1, m = .error (e, st1) → st1.sessions = s0)
    (hf : ∀ a, SessionsStable s0 (f a)) : SessionsStable s0 (m >>= f) := by
  cases m with
  | error e =>
    obtain ⟨e1, st1⟩ := e
    constructor
    · intro t ex s hok
      simp [Bind.bind, Except.bind] at hok
    · intro e2 s2 herr
      simp only [Bind.bind, Except.bind] at herr
      have h2 := Except.error.inj herr
      have h3 : st1 = s2 := congrArg (fun q => q.2) h2
      exact h3 ▸ hm e1 st1 rfl
  | ok a =>
    constructor
    · intro t ex s hok
      exact (hf a).1 t ex s (by simpa [Bind.bind, Except.bind] using hok)
    · intro e2 s2 herr
      exact (hf a).2 e2 s2 (by simpa [Bind.bind, Except.bind] using herr)

theorem sessionsStable_map {α : Type} {s0 : List SessionRow}
    (f : α → String × Bool × Store) (m : ExceptSt α)
    (hm : ∀ e st1, m = .error (e, st1) → st1.sessions = s0)
    (hf : ∀ a, (f a).2.2.sessions = s0) : SessionsStable s0 (f <$> m) := by
  cases m with
  | error e =>
    obtain ⟨e1, st1⟩ := e
    constructor
    · intro t ex s hok
      simp [Functor.map, Except.map] at hok
    · intro e2 s2 herr
      simp only [Functor.map, Except.map] at herr
      have h2 := Except.error.inj herr
      have h3 : st1 = s2 := congrArg (fun q => q.2) h2
      exact h3 ▸ hm e1 st1 rfl
  | ok a =>
    constructor
    · intro t ex s hok
      have h2 : f a = (t, ex, s) := by
        simpa [Functor.map, Except.map] using hok
      have h3 : (f a).2.2 = s := congrArg (fun p => p.2.2) h2
      exact h3 ▸ hf a

    · intro e2 s2 herr
      simp [Functor.map, Except.map] at herr

theorem sessionsStable_ite {s0 : List SessionRow} {c : Prop} [Decidable c]
    {A B : ExceptSt (String × Bool × Store)}
    (hA : c → SessionsStable s0 A) (hB : ¬c → SessionsStable s0 B) :
    SessionsStable s0 (if c then A else B) := by
  by_cases h : c
  · rw [if_pos h]; exact hA h
  · rw [if_neg h]; exact hB h

theorem req_error_store {st : Store} {inputs : Inputs} {k e : String}
    {st1 : Store} (h : req st inputs k = .error (e, st1)) : st1 = st := by
  unfold req at h
  cases hl : lookup inputs k with
  | none =>
    rw [hl] at h
    have h2 : ((pyKeyError k, st) : String × Store) = (e, st1) :=
      Except.error.inj h
    exact (congrArg (fun q => q.2) h2).symm
  | some v =>
    rw [hl] at h
    simp at h

theorem liftX_error_store {α : Type} {st : Store} {m : Except String α}
    {e : String} {st1 : Store} (h : liftX st m = .error (e, st1)) : st1 = st := by
  cases m with
  | error e2 =>
    have h2 : ((e2, st) : String × Store) = (e, st1) := Except.error.inj h
    exact (congrArg (fun q => q.2) h2).symm
  | ok a => simp [liftX] at h

theorem remember_sessions_stable (fl : Option String) (st : Store)
    (c x : String) (v : Int) (now : String) :
    (rememberedStore (Memory.remember fl st c x v now)).sessions =
      st.sessions := by
  cases fl <;> rfl

theorem delete_memory_sessions (f : Bool) (st : Store) (mid : Int) :
    (Memory.delete_memory f st mid).1.sessions = st.sessions := by
  simp only [Memory.delete_memory]
  split_ifs <;> rfl

set_option maxHeartbeats 1000000 in
theorem dispatchBody_sessionsStable (env : Env) (st : Store) (name : String)
    (inputs : Inputs) (sid : Nat) (acts : List ActionRec)
    (hn : name ≠ "end_session") :
    SessionsStable st.sessions (dispatchBody env st name inputs sid acts) := by
  unfold dispatchBody
  repeat' first
    | exact absurd ‹name = "end_session"› hn
    | exact sessionsStable_pure _ _ _ rfl
    | exact sessionsStable_pure _ _ _ (delete_memory_sessions _ _ _)
    | exact sessionsStable_error_of _ rfl
    | exact sessionsStable_map _ _
        (fun e st1 h => (liftX_error_store h) ▸ rfl) (fun a => rfl)
    | (refine sessionsStable_bind
        (fun e st1 h => (req_error_store h) ▸ rfl) (fun a => ?_))
    | (refine sessionsStable_bind
        (fun e st1 h => (liftX_error_store h) ▸ rfl) (fun a => ?_))
    | (refine sessionsStable_ite (fun hcnd => ?_) (fun hcnd => ?_))
    | split
  · rename_i s1 s2 xE p heq
    refine sessionsStable_error_of _ ?_
    have h2 := remember_sessions_stable env.chromaAddFail st s1 s2 a env.now
    rw [heq] at h2
    exact h2
  · rename_i s1 s2 xE st1 mid heq
    refine sessionsStable_pure _ _ _ ?_
    have h2 := remember_sessions_stable env.chromaAddFail st s1 s2 a env.now
    rw [heq] at h2
    exact h2

theorem dispatch_sessions_stable (env : Env) (st : Store) (name : String)
    (inputs : Inputs) (sid : Nat) (acts : List ActionRec)
    (hn : name ≠ "end_session") :
    (dispatch_tool env st name inputs sid acts).store.sessions = st.sessions := by
  have hb := dispatchBody_sessionsStable env st name inputs sid
    (acts ++ [⟨name, inputs⟩]) hn
  unfold dispatch_tool
  cases hB : dispatchBody env st name inputs sid (acts ++ [⟨name, inputs⟩]) with
  | error e =>
    obtain ⟨e1, st1⟩ := e
    simp only [hB]
    exact hb.2 e1 st1 hB
  | ok o =>
    obtain ⟨t, ex, st1⟩ := o
    simp only [hB]
    exact hb.1 t ex st1 hB

theorem dispatch_end_session (env : Env) (st : Store) (inputs : Inputs)
    (sid : Nat) (acts : List ActionRec) (s : String)
    (h : lookup inputs "summary" = some (JVal.s s)) :
    dispatch_tool env st "end_session" inputs sid acts =
      ⟨s, true,
       Memory.end_session st sid s (acts ++ [⟨"end_session", inputs⟩]) env.now,
       acts ++ [⟨"end_session", inputs⟩]⟩ := by
  simp only [dispatch_tool, dispatchBody, req, h]
  rfl

theorem processBlocks_results_ids (env : Env) (sid : Nat) :
    ∀ (bs : List Block) (st : Store) (acts : List ActionRec)
      (summ : String) (ex : Bool),
      (processBlocks env sid bs st acts summ ex).results.map (·.tool_use_id) =
        toolUseIds bs
  | [], _, _, _, _ => rfl
  | .text s :: bs, st, acts, summ, ex => by
    simpa [processBlocks, toolUseIds, List.filterMap_cons] using
      processBlocks_results_ids env sid bs st acts summ ex
  | .tool_use i n inp :: bs, st, acts, summ, ex => by
    have ih := processBlocks_results_ids env sid bs
      (dispatch_tool env st n inp sid acts).store
      (dispatch_tool env st n inp sid acts).actions
      (if n = "end_session" then
        match lookup inp "summary" with
        | some (.s s) => s
        | _ => summ
       else summ)
      (ex || (dispatch_tool env st n inp sid acts).shouldExit)
    simp only [processBlocks, toolUseIds, List.filterMap_cons, List.map_cons]
    rw [show (toolUseIds bs) = _ from rfl] at ih
    simpa [toolUseIds] using ih

theorem processBlocks_actions (env : Env) (sid : Nat) :
    ∀ (bs : List Block) (st : Store) (acts : List ActionRec)
      (summ : String) (ex : Bool),
      (processBlocks env sid bs st acts summ ex).actions =
        acts ++ toolUseActions bs
  | [], _, _, _, _ => by simp [processBlocks, toolUseActions]
  | .text s :: bs, st, acts, summ, ex => by
    simpa [processBlocks, toolUseActions, List.filterMap_cons] using
      processBlocks_actions env sid bs st acts summ ex
  | .tool_use i n inp :: bs, st, acts, summ, ex => by
    have ih := processBlocks_actions env sid bs
      (dispatch_tool env st n inp sid acts).store
      (dispatch_tool env st n inp sid acts).actions
      (if n = "end_session" then
        match lookup inp "summary" with
        | some (.s s) => s
        | _ => summ
       else summ)
      (ex || (dispatch_tool env st n inp sid acts).shouldExit)
    simp only [processBlocks, toolUseActions, List.filterMap_cons]
    rw [ih, dispatch_actions_append]
    simp [toolUseActions]

theorem processBlocks_exit_mono (env : Env) (sid : Nat) :
    ∀ (bs : List Block) (st : Store) (acts : List ActionRec) (summ : String),
      (processBlocks env sid bs st acts summ true).exitRequested = true
  | [], _, _, _ => rfl
  | .text s :: bs, st, acts, summ => by
    simpa [processBlocks] using processBlocks_exit_mono env sid bs st acts summ
  | .tool_use i n inp :: bs, st, acts, summ => by
    simp only [processBlocks, Bool.true_or]
    exact processBlocks_exit_mono env sid bs _ _ _

theorem processBlocks_end_session_exits (env : Env) (sid : Nat) :
    ∀ (bs : List Block) (st : Store) (acts : List ActionRec) (summ : String)
      (ex : Bool) (i : String) (inp : Inputs) (s : String),
      Block.tool_use i "end_session" inp ∈ bs →
      lookup inp "summary" = some (JVal.s s) →
      (processBlocks env sid bs st acts summ ex).exitRequested = true
  | [], _, _, _, _, _, _, _, hm, _ => absurd hm (List.not_mem_nil _)
  | .text t :: bs, st, acts, summ, ex, i, inp, s, hm, hs => by
    have hm2 : Block.tool_use i "end_session" inp ∈ bs := by
      rcases List.mem_cons.mp hm with h | h
      · exact absurd h (by simp)
      · exact h
    simpa [processBlocks] using
      processBlocks_end_session_exits env sid bs st acts summ ex i inp s hm2 hs
  | .tool_use j n jinp :: bs, st, acts, summ, ex, i, inp, s, hm, hs => by
    rcases List.mem_cons.mp hm with h | h
    · obtain ⟨rfl, rfl, rfl⟩ := by
        have h2 := h
        simp only [Block.tool_use.injEq] at h2
        exact h2
      simp only [processBlocks, dispatch_end_session env st inp sid acts s hs,
        Bool.or_true]
      exact processBlocks_exit_mono env sid bs _ _ _
    · simpa [processBlocks] using
        processBlocks_end_session_exits env sid bs
          (dispatch_tool env st n jinp sid acts).store
          (dispatch_tool env st n jinp sid acts).actions
          (if n = "end_session" then
            match lookup jinp "summary" with
            | some (.s s2) => s2
            | _ => summ
           else summ)
          (ex || (dispatch_tool env st n jinp sid acts).shouldExit) i inp s h hs

theorem processBlocks_no_end_session (env : Env) (sid : Nat) :
    ∀ (bs : List Block) (st : Store) (acts : List ActionRec) (summ : String)
      (ex : Bool),
      (∀ i n inp, Block.tool_use i n inp ∈ bs → n ≠ "end_session") →
      (processBlocks env sid bs st acts summ ex).exitRequested = ex ∧
      (processBlocks env sid bs st acts summ ex).summary = summ ∧
      (processBlocks env sid bs st acts summ ex).store.sessions = st.sessions
  | [], _, _, _, _, _ => ⟨rfl, rfl, rfl⟩
  | .text t :: bs, st, acts, summ, ex, h => by
    simpa [processBlocks] using
      processBlocks_no_end_session env sid bs st acts summ ex
        (fun i n inp hm => h i n inp (List.mem_cons_of_mem _ hm))
  | .tool_use j n jinp :: bs, st, acts, summ, ex, h => by
    have hn : n ≠ "end_session" := h j n jinp (List.mem_cons_self _ _)
    have hexit := dispatch_exit_only_end env st n jinp sid acts hn
    have hsess := dispatch_sessions_stable env st n jinp sid acts hn
    have ih := processBlocks_no_end_session env sid bs
      (dispatch_tool env st n jinp sid acts).store
      (dispatch_tool env st n jinp sid acts).actions
      summ (ex || (dispatch_tool env st n jinp sid acts).shouldExit)
      (fun i n2 inp hm => h i n2 inp (List.mem_cons_of_mem _ hm))
    simp only [processBlocks, if_neg hn, hexit, Bool.or_false] at ih ⊢
    exact ⟨ih.1, ih.2.1, ih.2.2.trans hsess⟩

theorem processBlocks_no_tool_use (env : Env) (sid : Nat) :
    ∀ (bs : List Block) (st : Store) (acts : List ActionRec) (summ : String)
      (ex : Bool),
      toolUseActions bs = [] →
      processBlocks env sid bs st acts summ ex = ⟨[], st, acts, summ, ex⟩
  | [], _, _, _, _, _ => rfl
  | .text t :: bs, st, acts, summ, ex, h => by
    simpa [processBlocks] using
      processBlocks_no_tool_use env sid bs st acts summ ex
        (by simpa [toolUseActions, List.filterMap_cons] using h)
  | .tool_use j n jinp :: bs, st, acts, summ, ex, h => by
    simp [toolUseActions, List.filterMap_cons] at h

theorem sessionLoop_turn_limit (env : Env) (script : Nat → ModelResponse)
    (sid : Nat) :
    ∀ (rem turn : Nat) (msgs : List Msg) (acts : List ActionRec)
      (summ : String) (st : Store),
      (∀ t, turn ≤ t → t < turn + rem → (script t).stop_reason = "tool_use") →
      (∀ t, turn ≤ t → t < turn + rem → ∀ i n inp,
        Block.tool_use i n inp ∈ (script t).content → n ≠ "end_session") →
      (sessionLoop env script sid rem turn msgs acts summ st).reason =
        EndReason.turnLimit ∧
      (sessionLoop env script sid rem turn msgs acts summ st).summary = summ ∧
      (∃ extra, (sessionLoop env script sid rem turn msgs acts summ st).actions =
        acts ++ extra) ∧
      ((sessionLoop env script sid rem turn msgs acts summ st).actions = [] →
        (sessionLoop env script sid rem turn msgs acts summ st).store = st) ∧
      ((sessionLoop env script sid rem turn msgs acts summ st).actions ≠ [] →
        (sessionLoop env script sid rem turn msgs acts summ st).store.sessions =
          st.sessions.map (fun r => if r.id == sid then
            { r with ended_at := some env.now,
                     summary := some "Session ended at turn limit.",
                     actions_json :=
                       (sessionLoop env script sid rem turn msgs acts summ st).actions }
            else r))
  | 0, turn, msgs, acts, summ, st, h1, h2 => by
    refine ⟨rfl, rfl, ⟨[], (List.append_nil acts).symm⟩, ?_, ?_⟩
    · intro hacts
      have hacts2 : acts = [] := hacts
      subst hacts2
      rfl
    · intro hacts
      have hacts2 : acts ≠ [] := hacts
      have hne : ¬acts.isEmpty = true := by
        simpa [List.isEmpty_iff] using hacts2
      show (if acts.isEmpty then st
        else Memory.end_session st sid "Session ended at turn limit." acts
          env.now).sessions = _
      rw [if_neg hne]
      rfl
  | rem + 1, turn, msgs, acts, summ, st, h1, h2 => by
    have hstop : (script turn).stop_reason = "tool_use" :=
      h1 turn (Nat.le_refl turn) (by omega)
    have hno : ∀ i n inp, Block.tool_use i n inp ∈ (script turn).content →
        n ≠ "end_session" :=
      h2 turn (Nat.le_refl turn) (by omega)
    have hpb := processBlocks_no_end_session env sid (script turn).content
      st acts summ false hno
    have hActs := processBlocks_actions env sid (script turn).content
      st acts summ false
    have hL : sessionLoop env script sid (rem + 1) turn msgs acts summ st =
        sessionLoop env script sid rem (turn + 1)
          ((msgs ++ [Msg.assistant (script turn).content]) ++
            [Msg.user (processBlocks env sid (script turn).content st acts
              summ false).results])
          (processBlocks env sid (script turn).content st acts summ
            false).actions
          (processBlocks env sid (script turn).content st acts summ
            false).summary
          (processBlocks env sid (script turn).content st acts summ
            false).store := by
      simp only [sessionLoop]
      rw [if_neg (by rw [hstop]; decide), if_neg (by rw [hstop]; simp),
        if_neg (by rw [hpb.1]; decide)]
    have ih := sessionLoop_turn_limit env script sid rem (turn + 1)
      ((msgs ++ [Msg.assistant (script turn).content]) ++
        [Msg.user (processBlocks env sid (script turn).content st acts
          summ false).results])
      (processBlocks env sid (script turn).content st acts summ false).actions
      (processBlocks env sid (script turn).content st acts summ false).summary
      (processBlocks env sid (script turn).content st acts summ false).store
      (fun t ht1 ht2 => h1 t (by omega) (by omega))
      (fun t ht1 ht2 => h2 t (by omega) (by omega))
    have hsum : (processBlocks env sid (script turn).content st acts summ
        false).summary = summ := hpb.2.1
    refine ⟨?_, ?_, ?_, ?_, ?_⟩
    · rw [hL]; exact ih.1
    · rw [hL]; exact (ih.2.1).trans hsum
    · rw [hL]
      obtain ⟨e', he'⟩ := ih.2.2.1
      refine ⟨toolUseActions (script turn).content ++ e', ?_⟩
      rw [he', hActs, List.append_assoc]
    · rw [hL]
      intro hA
      have hA0 := hA
      obtain ⟨e', he'⟩ := ih.2.2.1
      rw [he'] at hA
      obtain ⟨hacc, -⟩ := List.append_eq_nil.mp hA
      rw [hActs] at hacc
      obtain ⟨hacts0, htua⟩ := List.append_eq_nil.mp hacc
      have hzero := processBlocks_no_tool_use env sid (script turn).content
        st acts summ false htua
      have hstore : (processBlocks env sid (script turn).content st acts summ
          false).store = st := by rw [hzero]
      exact (ih.2.2.2.1 hA0).trans hstore
    · rw [hL]
      intro hA
      have hs := ih.2.2.2.2 hA
      rw [hs, hpb.2.2]

/-- C2: in a turn whose response requests several tool calls including a
successful `end_session`, the orchestrator dispatches every tool_use block of
the batch in order (one audit record per block, in order), appends exactly one
result per request, correlated 1:1 by `tool_use_id` and in request order, to
the message history, and only after that whole batch message is appended does
the exit flag end the session — the loop output carries the full batch. -/
theorem C2_terminating_batch (env : Env) (script : Nat → ModelResponse)
    (sid rem turn : Nat) (msgs : List Msg) (acts : List ActionRec)
    (summ : String) (st : Store)
    (hstop : (script turn).stop_reason = "tool_use")
    (hend : ∃ i inp s,
      Block.tool_use i "end_session" inp ∈ (script turn).content ∧
      lookup inp "summary" = some (JVal.s s)) :
    (sessionLoop env script sid (rem + 1) turn msgs acts summ st =
      ⟨(processBlocks env sid (script turn).content st acts summ false).summary,
       (msgs ++ [Msg.assistant (script turn).content]) ++
         [Msg.user (processBlocks env sid (script turn).content st acts summ
           false).results],
       (processBlocks env sid (script turn).content st acts summ false).actions,
       (processBlocks env sid (script turn).content st acts summ false).store,
       EndReason.agentEnded⟩) ∧
    ((processBlocks env sid (script turn).content st acts summ
        false).results.map (·.tool_use_id) = toolUseIds (script turn).content) ∧
    ((processBlocks env sid (script turn).content st acts summ false).actions =
      acts ++ toolUseActions (script turn).content) := by
  obtain ⟨i, inp, s, hmem, hsumm⟩ := hend
  have hexit := processBlocks_end_session_exits env sid (script turn).content
    st acts summ false i inp s hmem hsumm
  refine ⟨?_, processBlocks_results_ids env sid _ st acts summ false,
    processBlocks_actions env sid _ st acts summ false⟩
  simp only [sessionLoop]
  rw [if_neg (by rw [hstop]; decide), if_neg (by rw [hstop]; simp),
    if_pos hexit]

/-- C2 witness: a batch of `end_session` followed by two further tool calls
terminates the session through the normal exit-flag path. -/
theorem C2_terminating_batch_witness :
    (sessionLoop sampleEnv batchScript 1 (4 + 1) 0 [] []
      "Session ended without summary." skyStore).reason =
      EndReason.agentEnded := by
  have h := (C2_terminating_batch sampleEnv batchScript 1 4 0 [] []
    "Session ended without summary." skyStore rfl
    ⟨"tu1", [("summary", JVal.s "did things")], "did things",
      by decide, rfl⟩).1
  rw [h]

/-- C3: when `maxTurns` is exhausted with every turn requesting tools and the
terminating capability never requested, the loop ends with reason
`TurnLimitReached`; if actions were recorded the session row is force-updated
with `ended_at` set, the fixed summary "Session ended at turn limit." and the
accumulated action log; if zero actions were recorded the store (and so the
session row, `ended_at` still null) is untouched. -/
theorem C3_turn_limit_force_persist (env : Env) (script : Nat → ModelResponse)
    (sid maxTurns : Nat) (st : Store)
    (h1 : ∀ t, t < maxTurns → (script t).stop_reason = "tool_use")
    (h2 : ∀ t, t < maxTurns → ∀ i n inp,
      Block.tool_use i n inp ∈ (script t).content → n ≠ "end_session") :
    (run_session env script sid maxTurns st).reason = EndReason.turnLimit ∧
    ((run_session env script sid maxTurns st).actions = [] →
      (run_session env script sid maxTurns st).store = st) ∧
    ((run_session env script sid maxTurns st).actions ≠ [] →
      (run_session env script sid maxTurns st).store.sessions =
        st.sessions.map (fun r => if r.id == sid then
          { r with ended_at := some env.now,
                   summary := some "Session ended at turn limit.",
                   actions_json :=
                     (run_session env script sid maxTurns st).actions }
          else r)) := by
  have h := sessionLoop_turn_limit env script sid maxTurns 0 [] []
    "Session ended without summary." st
    (fun t ht1 ht2 => h1 t (by omega)) (fun t ht1 ht2 => h2 t (by omega))
  exact ⟨h.1, h.2.2.2.1, h.2.2.2.2⟩

/-- C3 witness: three turns of a single non-terminating tool call reach the
turn limit. -/
theorem C3_turn_limit_witness :
    (run_session sampleEnv busyScript 1 3 skyStore).reason =
      EndReason.turnLimit :=
  (C3_turn_limit_force_persist sampleEnv busyScript 1 3 skyStore
    (fun t ht => rfl)
    (fun t ht i n inp hm => by
      simp only [busyScript, List.mem_singleton] at hm
      simp only [Block.tool_use.injEq] at hm
      rcases hm with ⟨-, rfl, -⟩
      decide)).1

/-- C10: when the turn limit is reached without `end_session`, `run_session`
returns the fixed placeholder "Session ended without summary.", which differs
from the summary "Session ended at turn limit." persisted to the session row
when actions were recorded. -/
theorem C10_turn_limit_return_placeholder (env : Env)
    (script : Nat → ModelResponse) (sid maxTurns : Nat) (st : Store)
    (h1 : ∀ t, t < maxTurns → (script t).stop_reason = "tool_use")
    (h2 : ∀ t, t < maxTurns → ∀ i n inp,
      Block.tool_use i n inp ∈ (script t).content → n ≠ "end_session") :
    (run_session env script sid maxTurns st).summary =
      "Session ended without summary." ∧
    "Session ended without summary." ≠ "Session ended at turn limit." ∧
    ((run_session env script sid maxTurns st).actions ≠ [] →
      (run_session env script sid maxTurns st).store.sessions =
        st.sessions.map (fun r => if r.id == sid then
          { r with ended_at := some env.now,
                   summary := some "Session ended at turn limit.",
                   actions_json :=
                     (run_session env script sid maxTurns st).actions }
          else r)) := by
  have h := sessionLoop_turn_limit env script sid maxTurns 0 [] []
    "Session ended without summary." st
    (fun t ht1 ht2 => h1 t (by omega)) (fun t ht1 ht2 => h2 t (by omega))
  exact ⟨h.2.1, by decide, h.2.2.2.2⟩

/-- C10 witness: the concrete turn-limited session returns the placeholder. -/
theorem C10_turn_limit_witness :
    (run_session sampleEnv busyScript 1 3 skyStore).summary =
      "Session ended without summary." :=
  (C10_turn_limit_return_placeholder sampleEnv busyScript 1 3 skyStore
    (fun t ht => rfl)
    (fun t ht i n inp hm => by
      simp only [busyScript, List.mem_singleton] at hm
      simp only [Block.tool_use.injEq] at hm
      rcases hm with ⟨-, rfl, -⟩
      decide)).1
